import Mathlib

/-!
Verification of the IRIS local voice pipeline (packages/voice-backend).

This file gives a shallow embedding of the pipeline-orchestration code of
`iris_local.py` and `iris_gui.py` — the interruptible playback loop, the
VAD utterance segmenter, the barge-in monitor debounce loop, the streaming
token-to-sentence response loop of `process_voice`, and the orchestrator
history/state bookkeeping — and proves properties of those embeddings.

External collaborators (STT, TTS, LLM, VAD model inference, the audio
hardware) are treated as inputs: their outputs (transcripts, token streams,
per-chunk VAD decisions, playback sample counts) are parameters of the
embedded functions, exactly as the Python code consumes them through narrow
call contracts.
-/

namespace IrisModel

/-- Whitespace characters of the Python ASCII `\s` class and `str.strip`:
space, tab, newline, carriage return, vertical tab, form feed. -/
def isWs (c : Char) : Bool :=
  c = ' ' || c = '\t' || c = '\n' || c = '\r' || c = Char.ofNat 11 || c = Char.ofNat 12

/-- Terminal sentence punctuation, the character class `[.!?]` used by both
sentence regexes in `iris_local.py`. -/
def isTerm (c : Char) : Bool :=
  c = '.' || c = '!' || c = '?'

/-- All non-whitespace characters of a string, in order (used to compare
texts up to whitespace). -/
def removeWs (l : List Char) : List Char :=
  l.filter (fun c => !isWs c)

/-- Maximal leading whitespace run removed: the `\s*` tail of the sentence
regex `(.+?[.!?])\s*` in `process_voice`. -/
def dropWs (l : List Char) : List Char :=
  l.dropWhile isWs

/-- Python `str.strip()`: leading and trailing whitespace removed. -/
def trimChars (l : List Char) : List Char :=
  ((l.dropWhile isWs).reverse.dropWhile isWs).reverse

/-- Scanner for the group `(.+?[.!?])` of `re.match(r'(.+?[.!?])\s*', buffer)`:
`acc` holds the characters matched so far by `.+?` (at least one, none of them
a newline, since `.` does not match `'\n'`); the scan succeeds at the first
terminal-punctuation character and fails at a newline or at end of buffer. -/
def scanSentence : List Char → List Char → Option (List Char × List Char)
  | _, [] => none
  | acc, c :: rest =>
    if isTerm c then some (acc ++ [c], rest)
    else if c = '\n' then none
    else scanSentence (acc ++ [c]) rest

/-- Embedding of `re.match(r'(.+?[.!?])\s*', buffer)` from
`IrisLocal.process_voice` (iris_local.py:1084), without the trailing `\s*`:
returns `(group 1, remainder before the whitespace run)`. The first buffer
character is matched by `.+?`, so it must not be a newline; the matched
group is the shortest newline-free prefix of length at least two ending in
terminal punctuation. -/
def matchSentence : List Char → Option (List Char × List Char)
  | [] => none
  | c :: rest => if c = '\n' then none else scanSentence [c] rest

/-- Result of one `AudioIO.play_interruptible` call for a flushed sentence:
`played` samples reported out of `total` audio samples (iris_local.py:1101). -/
structure PlayRes where
  played : Nat
  total : Nat
deriving DecidableEq, Repr

/-- One iteration of the token loop of `process_voice` (iris_local.py:1068):
the token pulled from the LLM stream, the value of the interrupt flag as
observed by the two `_check_interrupt()` calls of that iteration (loop top,
line 1070, and before speaking a completed sentence, line 1090), and the
playback outcome when a sentence is flushed. The flag values and playback
counts are inputs because they come from the concurrent barge-in monitor
and the audio device. -/
structure TokenEvent where
  tok : List Char
  intrAtTop : Bool
  intrBeforeSentence : Bool
  play : PlayRes
deriving DecidableEq, Repr

/-- Loop state of the streaming section of `process_voice`:
`buffer`, `full_response`, `spoken_text`, `was_interrupted`
(iris_local.py:1056-1059). -/
structure StreamState where
  buffer : List Char
  full : List Char
  spoken : List Char
  interrupted : Bool
deriving DecidableEq, Repr

/-- Embedding of the `for token in self._call_llm_stream(prompt)` loop of
`IrisLocal.process_voice` (iris_local.py:1068-1116). Each iteration:
check the interrupt flag (break), append the token to `buffer` and
`full_response`, attempt one sentence match; on a match, consume
`group(0)` from the buffer, check the flag again (break), play the
sentence and either record a character-proportional prefix on partial
playback (`sentence[:int(len(sentence) * ratio)]`, break) or append the
whole sentence plus a space and continue. -/
def runTokens : StreamState → List TokenEvent → StreamState
  | s, [] => s
  | s, e :: rest =>
    if e.intrAtTop then { s with interrupted := true }
    else
      let buf := s.buffer ++ e.tok
      match matchSentence buf with
      | none => runTokens { s with buffer := buf, full := s.full ++ e.tok } rest
      | some (sen, aft) =>
        let s1 : StreamState :=
          { s with buffer := dropWs aft, full := s.full ++ e.tok }
        if e.intrBeforeSentence then { s1 with interrupted := true }
        else if e.play.played < e.play.total then
          { s1 with
              spoken := s1.spoken ++ sen.take (sen.length * e.play.played / e.play.total),
              interrupted := true }
        else runTokens { s1 with spoken := s1.spoken ++ sen ++ [' '] } rest

/-- Outcome of the streaming section of `process_voice`: the returned
`full_response`, the accumulated `spoken_text`, the `was_interrupted` flag,
and the `InterruptionEvent` payload `(intended_response, spoken_up_to)`
stored for the next turn when interrupted (iris_local.py:1118-1148). -/
structure StreamResult where
  full : List Char
  spoken : List Char
  interrupted : Bool
  event : Option (List Char × List Char)
deriving DecidableEq, Repr

/-- Embedding of `process_voice` from the start of the token loop to the
construction of the `InterruptionEvent`: after the loop, an uninterrupted
non-whitespace trailing buffer is spoken as one final chunk
(`if not was_interrupted and buffer.strip():`, line 1119, the playback
result of this final chunk being ignored by the code); on interruption the
event stores `full_response + buffer` as `intended_response` and
`spoken_text.strip()` as `spoken_up_to` (lines 1136-1142). -/
def processVoiceStream (events : List TokenEvent) : StreamResult :=
  let s := runTokens ⟨[], [], [], false⟩ events
  let spokenF :=
    if s.interrupted = false ∧ trimChars s.buffer ≠ [] then s.spoken ++ s.buffer
    else s.spoken
  { full := s.full
    spoken := spokenF
    interrupted := s.interrupted
    event := if s.interrupted then some (s.full ++ s.buffer, trimChars spokenF) else none }

/-- Python `str.split()` with no argument: words separated by whitespace
runs, empty pieces discarded. Used to state the word-based prefix
formula (the formula of `IrisLocal.speak`, iris_local.py:977-979). -/
def wordsOfAux : List Char → List Char → List (List Char)
  | cur, [] => if cur.isEmpty then [] else [cur.reverse]
  | cur, c :: rest =>
    if isWs c then
      if cur.isEmpty then wordsOfAux [] rest
      else cur.reverse :: wordsOfAux [] rest
    else wordsOfAux (c :: cur) rest

/-- Words of a sentence, as `sentence.split()` computes them. -/
def wordsOf (l : List Char) : List (List Char) :=
  wordsOfAux [] l

/-- Word-level cut claimed by the spec for an interrupted sentence: the first
`max(1, floor(fraction * wordCount))` words, joined by single spaces, where
`fraction = played / total`. -/
def claimWordCut (sen : List Char) (played total : Nat) : List Char :=
  let ws := wordsOf sen
  List.intercalate [' '] (ws.take (max 1 (ws.length * played / total)))

/-- One message of the bounded conversation history
(`{"role": ..., "content": ...}`). -/
structure HMsg where
  role : String
  content : String
deriving DecidableEq, Repr

/-- Embedding of the `InterruptionEvent` dataclass (iris_local.py:549-555). -/
structure InterruptionEvt where
  intended_response : String
  spoken_up_to : String
  user_interruption : String
  timestamp : ℚ
deriving DecidableEq, Repr

/-- Orchestrator state of `IrisLocal` relevant to history and context
bookkeeping (iris_local.py:579-590). -/
structure OrchState where
  conversation_history : List HMsg
  last_interruption : Option InterruptionEvt
  context_used : Nat
  context_max : Nat
  total_tokens_session : Nat
  max_history_turns : Nat
deriving DecidableEq, Repr

/-- Synthetic assistant turn recorded when a pending interruption is folded
into history (iris_local.py:1028-1032 and 786-790). -/
def interruption_note (ie : InterruptionEvt) : String :=
  "[INTERRUPTION: You were interrupted. You intended to say: \"" ++
    ie.intended_response ++ "\" but user only heard: \"" ++
    ie.spoken_up_to ++ "\"]"

/-- Embedding of the pending-interruption fold at the top of `process_voice`
(iris_local.py:1026-1039) and in `_call_llm` (784-797): the note is appended
directly to `self._conversation_history` (no trimming) and the event is
cleared. -/
def fold_interruption (s : OrchState) : OrchState :=
  match s.last_interruption with
  | none => s
  | some ie =>
    { s with
        conversation_history :=
          s.conversation_history ++ [⟨"assistant", interruption_note ie⟩],
        last_interruption := none }

/-- Embedding of `process_voice` up to the no-speech check
(iris_local.py:1025-1047): fold a pending interruption into history, then
run STT; `transcript` is the STT output. Returns the new state and whether
the cycle proceeds to the LLM (`False` means the `if not text.strip()`
branch returned early). -/
def process_voice_pre (s : OrchState) (transcript : String) : OrchState × Bool :=
  let s1 := fold_interruption s
  if trimChars transcript.data = [] then (s1, false) else (s1, true)

/-- Embedding of `IrisLocal.add_to_history` (iris_local.py:742-748): append
the message, then keep only the last `max_history_turns * 2` messages. -/
def add_to_history (s : OrchState) (role content : String) : OrchState :=
  let h := s.conversation_history ++ [⟨role, content⟩]
  let maxMessages := s.max_history_turns * 2
  { s with
      conversation_history :=
        if maxMessages < h.length then h.drop (h.length - maxMessages) else h }

/-- Embedding of `IrisLocal.clear_history` (iris_local.py:750-753). -/
def clear_history (s : OrchState) : OrchState :=
  { s with conversation_history := [], total_tokens_session := 0 }

/-- GUI-side processing state around `_process_vad_audio`: the processing
lock, the `_is_processing` display flag, and the rest of the application
state abstracted as `inner` (iris_gui.py:670-746). -/
structure GuiState (α : Type) where
  processing_lock : Bool
  is_processing : Bool
  inner : α
deriving DecidableEq, Repr

/-- Outcome of one `_process_vad_audio` call: the utterance was dropped at
the try-lock, or the body ran to completion, or the body raised and the
`except` clause logged the error. -/
inductive VadOutcome where
  | dropped
  | completed
  | errored
deriving DecidableEq, Repr

/-- Embedding of `IrisGUI._process_vad_audio` (iris_gui.py:670-746).
`body` abstracts the try-block (STT, LLM, TTS, GUI updates): it transforms
the inner state and optionally reports a raised exception, which the
`except Exception` clause catches. The non-blocking
`self._processing_lock.acquire(blocking=False)` fails when the lock is held
and the call returns at once; otherwise the `finally` clause clears
`_is_processing` and releases the lock on both the normal and the
exceptional path. -/
def process_vad_audio {α ε : Type} (body : α → α × Option ε)
    (s : GuiState α) : GuiState α × VadOutcome :=
  if s.processing_lock then (s, VadOutcome.dropped)
  else
    let r := body s.inner
    ({ processing_lock := false, is_processing := false, inner := r.1 },
      match r.2 with
      | none => VadOutcome.completed
      | some _ => VadOutcome.errored)

/-- One audio chunk as seen by the VAD segmenter: the boolean VAD decision
for the chunk and the sample count of the chunk. -/
structure SegChunk where
  isSpeech : Bool
  len : Nat
deriving DecidableEq, Repr

/-- Segmenter state of `run_vad_mode`'s `audio_callback`
(iris_local.py:1254-1257) and of `IrisGUI._vad_loop`: `is_speaking`,
the accumulated `audio_buffer`, and the `silence_samples` counter. -/
structure SegState where
  speaking : Bool
  buffer : List SegChunk
  silence : Nat
deriving DecidableEq, Repr

/-- Total sample count of a buffered utterance (`len(np.concatenate(...))`). -/
def sumLen (l : List SegChunk) : Nat :=
  (l.map SegChunk.len).sum

/-- Total sample count of the chunks the VAD classified as speech. -/
def speechLen (l : List SegChunk) : Nat :=
  sumLen (l.filter (fun c => c.isSpeech))

/-- One step of the utterance segmenter, from `audio_callback` in
`run_vad_mode` (iris_local.py:1263-1310); `IrisGUI._vad_loop`
(iris_gui.py:626-664) has the same structure. On speech: (re)start or grow
the buffer and reset the silence counter. On silence while speaking: append
the chunk too, grow the silence counter, and once it reaches
`silence_threshold` finalize — emit the buffer if its total length is at
least `min_samples`, otherwise discard it silently. -/
def segStep (silThresh minSamp : Nat) (st : SegState) (c : SegChunk) :
    SegState × Option (List SegChunk) :=
  if c.isSpeech then
    ({ speaking := true,
       buffer := (if st.speaking then st.buffer else []) ++ [c],
       silence := 0 }, none)
  else if st.speaking then
    let sil := st.silence + c.len
    let buf := st.buffer ++ [c]
    if silThresh ≤ sil then
      (⟨false, [], 0⟩,
        if buf ≠ [] ∧ minSamp ≤ sumLen buf then some buf else none)
    else ({ speaking := true, buffer := buf, silence := sil }, none)
  else (st, none)

/-- Run of the segmenter over a chunk sequence, collecting the emitted
utterances in order. -/
def segRun (silThresh minSamp : Nat) : SegState → List SegChunk → List (List SegChunk)
  | _, [] => []
  | st, c :: rest =>
    match segStep silThresh minSamp st c with
    | (st1, some u) => u :: segRun silThresh minSamp st1 rest
    | (st1, none) => segRun silThresh minSamp st1 rest

/-- One frame read by the barge-in monitor thread: its sample count and the
Silero speech probability. -/
structure MonFrame where
  len : Nat
  prob : ℚ
deriving DecidableEq, Repr

/-- Embedding of `SileroVAD.is_speech` for the private monitor instance
`SileroVAD(threshold=0.7)` (iris_local.py:655, 273): speech probability
strictly above the threshold. -/
def mon_is_speech (f : MonFrame) : Bool :=
  decide ((7 : ℚ) / 10 < f.prob)

/-- Condition under which the monitor counts a frame
(iris_local.py:684): `is_speech and confidence > 0.7`. -/
def mon_qualifies (f : MonFrame) : Bool :=
  mon_is_speech f && decide ((7 : ℚ) / 10 < f.prob)

/-- Embedding of the monitor loop of `IrisLocal._start_vad_monitor`
(iris_local.py:666-691): frames shorter than 512 samples are skipped;
a qualifying frame bumps `speech_frames`, and when the counter reaches
`speech_threshold = 3` the interrupt flag is raised and the loop exits;
any other frame resets the counter to zero. Returns whether the flag was
raised during the run. -/
def monitor_run : Nat → List MonFrame → Bool
  | _, [] => false
  | k, f :: rest =>
    if f.len < 512 then monitor_run k rest
    else if mon_qualifies f then
      if 3 ≤ k + 1 then true else monitor_run (k + 1) rest
    else monitor_run 0 rest

/-- Number of times the monitor loop sets the interrupt flag: the same loop
as `monitor_run`, counting flag writes (the loop breaks right after the
write, so the count of the remaining run is what follows a raise). -/
def monitor_raise_count : Nat → List MonFrame → Nat
  | _, [] => 0
  | k, f :: rest =>
    if f.len < 512 then monitor_raise_count k rest
    else if mon_qualifies f then
      if 3 ≤ k + 1 then 1 else monitor_raise_count (k + 1) rest
    else monitor_raise_count 0 rest

/-- Frames long enough to be classified by the VAD of the monitor (the others hit
the `continue` at iris_local.py:679-680). -/
def classified (fs : List MonFrame) : List MonFrame :=
  fs.filter (fun f => !(f.len < 512))

/-- Property-side predicate: the list contains three consecutive qualifying
frames. -/
def threeConsecutive : List MonFrame → Bool
  | a :: b :: c :: rest =>
    (mon_qualifies a && mon_qualifies b && mon_qualifies c) ||
      threeConsecutive (b :: c :: rest)
  | _ => false

/-- Auxiliary property: the first `n` frames of the list exist and all
qualify. -/
def headQual (n : Nat) (l : List MonFrame) : Bool :=
  decide (n ≤ l.length) && (l.take n).all mon_qualifies

/-- Event in which the barge-in machinery stays quiet: the interrupt flag is
observed unset at both checks and, if a sentence is flushed, its playback
runs to completion (`play_interruptible` returns the full length). -/
def calmEvent (e : TokenEvent) : Bool :=
  !e.intrAtTop && !e.intrBeforeSentence && !(decide (e.play.played < e.play.total))

/-- Embedding of `AudioIO.play_interruptible` (iris_local.py:488-538).
The polling loop breaks as completed once the elapsed time reaches
`total_duration = len(audio) / sample_rate` (then `sd.wait()` runs and the
full length is returned); if the abort callback is observed first, at
elapsed time `e` strictly below the total duration, playback is stopped
and `int(elapsed * sample_rate)` is returned. `abortAt` is the elapsed
time at which the loop observes the abort, `none` when no abort fires. -/
def play_interruptible (audioLen rate : Nat) (abortAt : Option ℚ) : Nat :=
  match abortAt with
  | none => audioLen
  | some e =>
    if e < (audioLen : ℚ) / (rate : ℚ) then Int.toNat ⌊e * (rate : ℚ)⌋
    else audioLen

/-! Helper lemmas. -/

lemma scanSentence_append : ∀ (l acc g r : List Char),
    scanSentence acc l = some (g, r) → g ++ r = acc ++ l := by
  intro l
  induction l with
  | nil => intro acc g r h; simp [scanSentence] at h
  | cons c rest ih =>
    intro acc g r h
    rw [scanSentence] at h
    by_cases ht : isTerm c = true
    · rw [if_pos ht] at h
      obtain ⟨h1, h2⟩ := Prod.mk.injEq .. ▸ Option.some.inj h
      subst h1; subst h2; simp
    · rw [if_neg ht] at h
      by_cases hn : c = '\n'
      · rw [if_pos hn] at h; exact absurd h (by simp)
      · rw [if_neg hn] at h
        have := ih (acc ++ [c]) g r h
        simpa [List.append_assoc] using this

lemma matchSentence_append (l g r : List Char)
    (h : matchSentence l = some (g, r)) : g ++ r = l := by
  cases l with
  | nil => simp [matchSentence] at h
  | cons c rest =>
    rw [matchSentence] at h
    by_cases hn : c = '\n'
    · rw [if_pos hn] at h; simp at h
    · rw [if_neg hn] at h
      simpa using scanSentence_append rest [c] g r h

lemma removeWs_append (a b : List Char) :
    removeWs (a ++ b) = removeWs a ++ removeWs b :=
  List.filter_append ..

lemma removeWs_dropWs (l : List Char) : removeWs (dropWs l) = removeWs l := by
  induction l with
  | nil => rfl
  | cons c rest ih =>
    by_cases h : isWs c = true
    · simpa [dropWs, removeWs, List.dropWhile_cons, h] using ih
    · simp [dropWs, List.dropWhile_cons, h]

lemma removeWs_of_trim_nil (l : List Char) (h : trimChars l = []) :
    removeWs l = [] := by
  unfold trimChars at h
  rw [List.reverse_eq_nil_iff] at h
  have h2 : ∀ x ∈ (l.dropWhile isWs).reverse, isWs x := by
    rw [List.dropWhile_eq_nil_iff] at h
    exact h
  have h3 : ∀ x ∈ l.dropWhile isWs, isWs x := by
    intro x hx
    exact h2 x (List.mem_reverse.mpr hx)
  have h4 : ∀ x ∈ l, isWs x := by
    intro x hx
    rw [← List.takeWhile_append_dropWhile (p := isWs) (l := l)] at hx
    rcases List.mem_append.mp hx with hx1 | hx2
    · exact List.mem_takeWhile_imp hx1
    · exact h3 x hx2
  rw [removeWs, List.filter_eq_nil_iff]
  intro a ha
  simp [h4 a ha]

/-! C1 — interrupted-sentence accounting in the streaming loop. -/

/-- C1 (amended): in the token-streaming loop of `process_voice`, when a
playback of a flushed sentence is cut short (`samplesPlayed < len(audio)`)
and the interrupt flag was not observed earlier in the iteration, the text
appended to the spoken record is the character-proportional prefix
`sentence[:int(len(sentence) * samplesPlayed / len(audio))]` (possibly
empty, possibly mid-word) — not a whole-word prefix — the interrupted flag
is set, and no further tokens are consumed (the result does not depend on
the remaining events). -/
theorem c1_amended_char_cut (s : StreamState) (e : TokenEvent)
    (rest : List TokenEvent) (sen aft : List Char)
    (h1 : e.intrAtTop = false) (h2 : e.intrBeforeSentence = false)
    (hm : matchSentence (s.buffer ++ e.tok) = some (sen, aft))
    (hp : e.play.played < e.play.total) :
    runTokens s (e :: rest) =
      { buffer := dropWs aft
        full := s.full ++ e.tok
        spoken := s.spoken ++ sen.take (sen.length * e.play.played / e.play.total)
        interrupted := true } := by
  simp [runTokens, h1, h2, hm, hp]

/-- Witness for C1: a concrete cut-short playback, with a further pending
event that is indeed never consumed. -/
theorem c1_witness :
    runTokens ⟨[], [], [], false⟩
        [⟨"Hello world.".data, false, false, ⟨100, 1000⟩⟩,
          ⟨"Ignored. ".data, false, false, ⟨1, 1⟩⟩] =
      ⟨[], "Hello world.".data, "H".data, true⟩ := by
  have h := c1_amended_char_cut ⟨[], [], [], false⟩
      ⟨"Hello world.".data, false, false, ⟨100, 1000⟩⟩
      [⟨"Ignored. ".data, false, false, ⟨1, 1⟩⟩]
      ("Hello world.".data) [] rfl rfl (by decide) (by decide)
  rw [h]; decide

/-- Counterexample to C1 as stated: for the sentence "Hello world." cut at
10% of its audio, the code appends the bare character prefix "H", whereas
the claimed whole-word prefix of `max(1, floor(fraction * wordCount))`
words is "Hello". -/
theorem c1_counterexample :
    (runTokens ⟨[], [], [], false⟩
        [⟨"Hello world.".data, false, false, ⟨100, 1000⟩⟩]).spoken = "H".data ∧
    claimWordCut ("Hello world.".data) 100 1000 = "Hello".data ∧
    "H".data ≠ "Hello".data := by
  refine ⟨by decide, by decide, by decide⟩

/-! C4 — `intended_response` duplicates the unflushed buffer. -/

/-- C4 (code evaluated at the failing input): with token stream
`["Hello ", "x"]` and the barge-in flag observed at the top of the second
iteration, the recorded `InterruptionEvent.intended_response` is
`full_response + buffer = "Hello Hello "` — the unflushed buffer, already
contained in `full_response`, is appended a second time — while the full
generated text is "Hello ". -/
theorem c4_intended_duplicates_buffer :
    (processVoiceStream
        [⟨"Hello ".data, false, false, ⟨0, 0⟩⟩,
          ⟨"x".data, true, false, ⟨0, 0⟩⟩]).event =
      some ("Hello Hello ".data, []) ∧
    (processVoiceStream
        [⟨"Hello ".data, false, false, ⟨0, 0⟩⟩,
          ⟨"x".data, true, false, ⟨0, 0⟩⟩]).full = "Hello ".data ∧
    "Hello Hello ".data ≠ "Hello ".data := by
  refine ⟨by decide, by decide, by decide⟩

/-! C5 — empty-transcript cycles. -/

/-- C5 (amended): when no InterruptionEvent is pending, a cycle whose STT
transcript is empty or whitespace ends silently before the LLM call and
leaves the orchestrator state — in particular the conversation history —
unchanged. (With a pending event, the interruption annotation turn is
appended to history before the no-speech check, see the counterexample.) -/
theorem c5_amended_no_speech (s : OrchState) (transcript : String)
    (hie : s.last_interruption = none)
    (ht : trimChars transcript.data = []) :
    process_voice_pre s transcript = (s, false) := by
  simp [process_voice_pre, fold_interruption, hie, ht]

/-- Witness for C5: a whitespace transcript with no pending interruption. -/
theorem c5_witness :
    process_voice_pre ⟨[], none, 0, 8192, 0, 10⟩ "  " =
      (⟨[], none, 0, 8192, 0, 10⟩, false) :=
  c5_amended_no_speech _ _ rfl (by decide)

/-- Counterexample to C5 as stated: with a pending InterruptionEvent and a
whitespace-only transcript, the cycle still ends before the LLM call but
the conversation history is mutated (the interruption note is appended),
so the history after the call differs from the history before. -/
theorem c5_counterexample :
    trimChars (" ").data = [] ∧
    (process_voice_pre
        ⟨[], some ⟨"Hi there", "Hi", "", 0⟩, 0, 8192, 0, 10⟩ " ").2 = false ∧
    (process_voice_pre
        ⟨[], some ⟨"Hi there", "Hi", "", 0⟩, 0, 8192, 0, 10⟩ " ").1.conversation_history ≠
      ([] : List HMsg) := by
  refine ⟨by decide, by decide, by decide⟩

/-! C7 — bounded history. -/

lemma keep_last_le (m : Nat) (l : List HMsg) :
    (if m < l.length then l.drop (l.length - m) else l).length ≤ m ∧
    (if m < l.length then l.drop (l.length - m) else l) <:+ l := by
  by_cases h : m < l.length
  · rw [if_pos h]
    exact ⟨by rw [List.length_drop]; omega, List.drop_suffix ..⟩
  · rw [if_neg h]
    exact ⟨Nat.le_of_not_lt h, List.suffix_refl ..⟩

/-- C7 (amended): every append made through `add_to_history` leaves at most
`max_history_turns * 2` messages, and the retained messages are a suffix of
the appended sequence — the oldest messages are dropped first and the
relative order of the retained ones is preserved. (The direct
interruption-note appends bypass this trim and can transiently exceed the
bound by one message; see the counterexample.) -/
theorem c7_amended_bounded_history (s : OrchState) (role content : String) :
    (add_to_history s role content).conversation_history.length ≤
      s.max_history_turns * 2 ∧
    (add_to_history s role content).conversation_history <:+
      (s.conversation_history ++ [⟨role, content⟩]) := by
  exact keep_last_le (s.max_history_turns * 2)
    (s.conversation_history ++ [⟨role, content⟩])

/-- Counterexample to C7 as stated: folding a pending interruption into a
history that already holds 20 messages appends directly (no trim) and
leaves 21 messages, exceeding the 2·N = 20 bound. -/
theorem c7_counterexample :
    ((fold_interruption
        ⟨List.replicate 20 ⟨"user", "hi"⟩, some ⟨"full reply", "part", "", 0⟩,
          0, 8192, 0, 10⟩).conversation_history).length = 21 ∧
    ¬(21 ≤ 10 * 2) := by
  refine ⟨by simp [fold_interruption], by decide⟩

/-! C9 — `play_interruptible` return-value contract. -/

/-- C9: `play_interruptible` returns the full audio length when playback
runs to completion without abort; when aborted at elapsed time `e` with
`e < totalDuration`, it returns `int(e * rate)`, which equals
`elapsed / totalDuration * len(audio)` and is strictly less than the audio
length. -/
theorem c9_play_interruptible_contract (audioLen rate : Nat) (e : ℚ)
    (he : 0 ≤ e) (hr : 0 < rate)
    (hlt : e < (audioLen : ℚ) / (rate : ℚ)) :
    play_interruptible audioLen rate none = audioLen ∧
    play_interruptible audioLen rate (some e) = Int.toNat ⌊e * (rate : ℚ)⌋ ∧
    Int.toNat ⌊e * (rate : ℚ)⌋ < audioLen ∧
    (0 < audioLen →
      e / ((audioLen : ℚ) / (rate : ℚ)) * (audioLen : ℚ) = e * (rate : ℚ)) := by
  have hr' : (0 : ℚ) < (rate : ℚ) := by exact_mod_cast hr
  have hmul : e * (rate : ℚ) < (audioLen : ℚ) := by
    rw [lt_div_iff₀ hr'] at hlt; exact hlt
  refine ⟨rfl, ?_, ?_, ?_⟩
  · simp [play_interruptible, hlt]
  · have hfl : ⌊e * (rate : ℚ)⌋ < (audioLen : ℤ) := by
      apply Int.floor_lt.mpr; push_cast; exact hmul
    have hnn : 0 ≤ ⌊e * (rate : ℚ)⌋ := Int.floor_nonneg.mpr (mul_nonneg he hr'.le)
    omega
  · intro hL
    have hL' : ((audioLen : ℚ)) ≠ 0 := by
      have : (0 : ℚ) < (audioLen : ℚ) := by exact_mod_cast hL
      exact this.ne'
    have hrne : ((rate : ℚ)) ≠ 0 := hr'.ne'
    field_simp

/-- Witness for C9: 16000 samples at 16 kHz aborted at 0.5 s yield 8000
samples reported. -/
theorem c9_witness :
    play_interruptible 16000 16000 (some ((1 : ℚ) / 2)) =
      Int.toNat ⌊((1 : ℚ) / 2) * ((16000 : Nat) : ℚ)⌋ ∧
    Int.toNat ⌊((1 : ℚ) / 2) * ((16000 : Nat) : ℚ)⌋ < 16000 := by
  have h := c9_play_interruptible_contract 16000 16000 ((1 : ℚ) / 2)
    (by norm_num) (by norm_num) (by norm_num)
  exact ⟨h.2.1, h.2.2.1⟩

/-! C10 — frame condition of `clear_history`. -/

/-- C10: `clear_history` empties the conversation history, zeroes the
session token total, and leaves `context_used`, `context_max`,
`max_history_turns` and any pending InterruptionEvent unchanged. -/
theorem c10_clear_history_frame (s : OrchState) :
    (clear_history s).conversation_history = [] ∧
    (clear_history s).total_tokens_session = 0 ∧
    (clear_history s).context_used = s.context_used ∧
    (clear_history s).context_max = s.context_max ∧
    (clear_history s).max_history_turns = s.max_history_turns ∧
    (clear_history s).last_interruption = s.last_interruption :=
  ⟨rfl, rfl, rfl, rfl, rfl, rfl⟩

/-! C3 — single-flight processing lock. -/

/-- C3: when `_process_vad_audio` is entered while the processing lock is
already held, the non-blocking acquisition fails and the call returns
immediately with the utterance dropped, not queued, and no state mutated;
when the lock is acquired, it is released (and `_is_processing` cleared)
on every exit path, whether the body completes or raises. -/
theorem c3_single_flight_lock {α ε : Type} (body : α → α × Option ε)
    (s : GuiState α) :
    (s.processing_lock = true →
      process_vad_audio body s = (s, VadOutcome.dropped)) ∧
    (s.processing_lock = false →
      (process_vad_audio body s).1.processing_lock = false ∧
      (process_vad_audio body s).1.is_processing = false) := by
  constructor
  · intro h; simp [process_vad_audio, h]
  · intro h; simp [process_vad_audio, h]

/-- Witness for C3: a held lock drops the call unchanged; an acquired lock
is released even when the body reports an exception. -/
theorem c3_witness :
    process_vad_audio (fun a => (a + 1, (none : Option Unit)))
        (⟨true, false, 0⟩ : GuiState Nat) =
      ((⟨true, false, 0⟩ : GuiState Nat), VadOutcome.dropped) ∧
    (process_vad_audio (fun a => (a + 1, (some () : Option Unit)))
        (⟨false, false, 0⟩ : GuiState Nat)).1.processing_lock = false :=
  ⟨(c3_single_flight_lock (fun a => (a + 1, (none : Option Unit)))
      (⟨true, false, 0⟩ : GuiState Nat)).1 rfl,
    ((c3_single_flight_lock (fun a => (a + 1, (some () : Option Unit)))
      (⟨false, false, 0⟩ : GuiState Nat)).2 rfl).1⟩

/-! C2 — utterance segmenter emission bound. -/

lemma segStep_emit (silThresh minSamp : Nat) (st : SegState) (c : SegChunk)
    (u : List SegChunk)
    (h : (segStep silThresh minSamp st c).2 = some u) :
    minSamp ≤ sumLen u := by
  by_cases hs : c.isSpeech = true
  · simp [segStep, hs] at h
  · by_cases hsp : st.speaking = true
    · by_cases hsil : silThresh ≤ st.silence + c.len
      · by_cases hg : st.buffer ++ [c] ≠ [] ∧ minSamp ≤ sumLen (st.buffer ++ [c])
        · simp [segStep, hs, hsp, hsil, hg] at h
          rw [← h]
          exact hg.2
        · simp [segStep, hs, hsp, hsil, hg] at h
          rw [← h.2]
          exact h.1
      · simp [segStep, hs, hsp, hsil] at h
    · simp [segStep, hs, hsp] at h

/-- C2 (amended): the segmenter emits an utterance only when the total
buffered duration — the speech chunks plus the silence chunks accumulated
while in the SPEECH state — is at least `min_samples`; shorter buffers are
discarded silently. Speech duration alone below the minimum does not
prevent emission (see the counterexample). -/
theorem c2_amended_min_buffered (silThresh minSamp : Nat) (st : SegState)
    (chunks : List SegChunk) (u : List SegChunk)
    (hu : u ∈ segRun silThresh minSamp st chunks) :
    minSamp ≤ sumLen u := by
  induction chunks generalizing st with
  | nil => simp [segRun] at hu
  | cons c rest ih =>
    rw [segRun] at hu
    rcases hstep : segStep silThresh minSamp st c with ⟨st1, emitted⟩
    rw [hstep] at hu
    cases emitted with
    | none => exact ih st1 hu
    | some u0 =>
      rcases List.mem_cons.mp hu with h1 | h2
      · subst h1
        exact segStep_emit silThresh minSamp st c u (by rw [hstep])
      · exact ih st1 h2

/-- Witness for C2: 32 speech chunks followed by 16 silence chunks emit a
single utterance of 48 · 512 = 24576 buffered samples, at least 16000. -/
theorem c2_witness :
    (16000 : Nat) ≤
      sumLen (List.replicate 32 (⟨true, 512⟩ : SegChunk) ++
        List.replicate 16 (⟨false, 512⟩ : SegChunk)) :=
  c2_amended_min_buffered 8000 16000 ⟨false, [], 0⟩
    (List.replicate 32 (⟨true, 512⟩ : SegChunk) ++
      List.replicate 16 (⟨false, 512⟩ : SegChunk))
    _ (by decide)

/-- Counterexample to C2 as stated: two isolated speech chunks (1024
samples ≈ 0.064 s of speech, far below `min_speech_duration` = 16000
samples) interleaved with buffered silence still produce an emitted
utterance, because the finalize check measures the whole buffer (speech
plus silence: 33 · 512 = 16896 ≥ 16000), not the speech duration. -/
theorem c2_counterexample :
    speechLen ((⟨true, 512⟩ : SegChunk) ::
        (List.replicate 15 (⟨false, 512⟩ : SegChunk) ++
          (⟨true, 512⟩ : SegChunk) ::
            List.replicate 16 (⟨false, 512⟩ : SegChunk))) = 1024 ∧
    (1024 : Nat) < 16000 ∧
    segRun 8000 16000 ⟨false, [], 0⟩
        ((⟨true, 512⟩ : SegChunk) ::
          (List.replicate 15 (⟨false, 512⟩ : SegChunk) ++
            (⟨true, 512⟩ : SegChunk) ::
              List.replicate 16 (⟨false, 512⟩ : SegChunk))) ≠ [] := by
  refine ⟨by decide, by decide, by decide⟩

/-! C8 — barge-in monitor debounce. -/

lemma threeConsecutive_cons (x : MonFrame) (l : List MonFrame)
    (h : threeConsecutive l = true) : threeConsecutive (x :: l) = true := by
  rcases l with _ | ⟨a, _ | ⟨b, l2⟩⟩
  · simp [threeConsecutive] at h
  · simp [threeConsecutive] at h
  · have e : threeConsecutive (x :: a :: b :: l2) =
        ((mon_qualifies x && mon_qualifies a && mon_qualifies b) ||
          threeConsecutive (a :: b :: l2)) := rfl
    rw [e, h, Bool.or_true]

lemma headQual3_three (l : List MonFrame) (h : headQual 3 l = true) :
    threeConsecutive l = true := by
  rcases l with _ | ⟨a, _ | ⟨b, _ | ⟨c, rest⟩⟩⟩
  · simp [headQual] at h
  · simp [headQual] at h
  · simp [headQual] at h
  · have e : threeConsecutive (a :: b :: c :: rest) =
        ((mon_qualifies a && mon_qualifies b && mon_qualifies c) ||
          threeConsecutive (b :: c :: rest)) := rfl
    simp [headQual] at h
    rw [e]
    simp [h.1, h.2.1, h.2.2]

lemma monitor_run_sound : ∀ (fs : List MonFrame) (k : Nat),
    monitor_run k fs = true →
    headQual (3 - k) (classified fs) = true ∨
      threeConsecutive (classified fs) = true := by
  intro fs
  induction fs with
  | nil => intro k h; simp [monitor_run] at h
  | cons f rest ih =>
    intro k h
    rw [monitor_run] at h
    by_cases hlen : f.len < 512
    · rw [if_pos hlen] at h
      have hcl : classified (f :: rest) = classified rest := by
        simp [classified, hlen]
      rw [hcl]
      exact ih k h
    · rw [if_neg hlen] at h
      have hcl : classified (f :: rest) = f :: classified rest := by
        simp [classified, hlen]
      by_cases hq : mon_qualifies f = true
      · rw [if_pos hq] at h
        by_cases h3 : 3 ≤ k + 1
        · left
          rw [hcl]
          rcases (show 3 - k = 0 ∨ 3 - k = 1 by omega) with h0 | h1
          · rw [h0]; simp [headQual]
          · rw [h1]; simp [headQual, hq]
        · rw [if_neg h3] at h
          rcases ih (k + 1) h with hh | ht
          · left
            rw [hcl]
            have e : 3 - k = (3 - (k + 1)) + 1 := by omega
            rw [e]
            simp [headQual] at hh ⊢
            exact ⟨hh.1, hq, hh.2⟩
          · right; rw [hcl]; exact threeConsecutive_cons f _ ht
      · rw [if_neg hq] at h
        rcases ih 0 h with hh | ht
        · right
          rw [hcl]
          exact threeConsecutive_cons f _ (headQual3_three _ (by simpa using hh))
        · right; rw [hcl]; exact threeConsecutive_cons f _ ht

/-- C8: the monitor raises the interrupt flag only after observing three
consecutive classified frames with speech probability above the 0.7
monitor threshold; a classified frame that does not qualify resets the
consecutive counter to zero; and the flag is raised at most once per
monitoring session (the loop exits immediately after raising it). -/
theorem c8_debounce_monitor :
    (∀ fs : List MonFrame,
      monitor_run 0 fs = true → threeConsecutive (classified fs) = true) ∧
    (∀ (k : Nat) (f : MonFrame) (rest : List MonFrame),
      ¬ f.len < 512 → mon_qualifies f = false →
      monitor_run k (f :: rest) = monitor_run 0 rest) ∧
    (∀ (k : Nat) (fs : List MonFrame), monitor_raise_count k fs ≤ 1) := by
  refine ⟨?_, ?_, ?_⟩
  · intro fs h
    rcases monitor_run_sound fs 0 h with hh | ht
    · exact headQual3_three _ (by simpa using hh)
    · exact ht
  · intro k f rest hlen hq
    simp [monitor_run, hlen, hq]
  · intro k fs
    induction fs generalizing k with
    | nil => simp [monitor_raise_count]
    | cons f rest ih =>
      rw [monitor_raise_count]
      by_cases h1 : f.len < 512
      · rw [if_pos h1]; exact ih k
      · rw [if_neg h1]
        by_cases h2 : mon_qualifies f = true
        · rw [if_pos h2]
          by_cases h3 : 3 ≤ k + 1
          · rw [if_pos h3]
          · rw [if_neg h3]; exact ih (k + 1)
        · rw [if_neg h2]; exact ih 0

/-- Witness for C8: three consecutive high-probability frames do contain a
qualifying run of three; a non-qualifying classified frame resets a
counter of 5; and a short run raises at most once. -/
theorem c8_witness :
    threeConsecutive (classified
      [(⟨512, 9 / 10⟩ : MonFrame), ⟨512, 9 / 10⟩, ⟨512, 9 / 10⟩]) = true ∧
    monitor_run 5 [(⟨512, 1 / 10⟩ : MonFrame)] = monitor_run 0 [] ∧
    monitor_raise_count 0 [(⟨512, 9 / 10⟩ : MonFrame)] ≤ 1 :=
  ⟨c8_debounce_monitor.1 _
      (by norm_num [monitor_run, mon_qualifies, mon_is_speech]),
    c8_debounce_monitor.2.1 5 ⟨512, 1 / 10⟩ [] (by norm_num)
      (by norm_num [mon_qualifies, mon_is_speech]),
    c8_debounce_monitor.2.2 0 _⟩

/-! C6 — uninterrupted runs speak the whole response up to whitespace. -/

lemma runTokens_calm : ∀ (events : List TokenEvent) (s : StreamState),
    (∀ e ∈ events, calmEvent e = true) →
    s.interrupted = false →
    removeWs (s.spoken ++ s.buffer) = removeWs s.full →
    (runTokens s events).interrupted = false ∧
    removeWs ((runTokens s events).spoken ++ (runTokens s events).buffer) =
      removeWs (runTokens s events).full := by
  intro events
  induction events with
  | nil =>
    intro s _ hi hinv
    exact ⟨hi, hinv⟩
  | cons e rest ih =>
    intro s hcalm hi hinv
    have hce := hcalm e (List.mem_cons_self ..)
    simp only [calmEvent, Bool.and_eq_true, Bool.not_eq_true',
      decide_eq_false_iff_not] at hce
    obtain ⟨⟨htop, hbef⟩, hplay⟩ := hce
    rw [runTokens]
    rw [htop]
    simp only [Bool.false_eq_true, if_false]
    cases hm : matchSentence (s.buffer ++ e.tok) with
    | none =>
      apply ih
      · intro x hx; exact hcalm x (List.mem_cons_of_mem _ hx)
      · exact hi
      · simp only
        rw [← List.append_assoc, removeWs_append, removeWs_append,
          removeWs_append]
        rw [removeWs_append] at hinv
        rw [hinv]
    | some pair =>
      rcases pair with ⟨sen, aft⟩
      have hseq := matchSentence_append _ _ _ hm
      rw [hbef]
      simp only [Bool.false_eq_true, if_false]
      rw [if_neg hplay]
      apply ih
      · intro x hx; exact hcalm x (List.mem_cons_of_mem _ hx)
      · exact hi
      · simp only
        have hws : removeWs [' '] = [] := rfl
        rw [removeWs_append, removeWs_append, removeWs_append, hws,
          removeWs_dropWs, List.append_nil, List.append_assoc,
          ← removeWs_append, hseq, removeWs_append, removeWs_append,
          ← List.append_assoc]
        rw [removeWs_append] at hinv
        rw [hinv]

/-- C6 (amended): for every token stream, if the interrupt flag is never
observed and `play_interruptible` reports full completion for every
flushed sentence, then `was_interrupted` is false and the spoken text
equals the full response up to whitespace — ignoring whitespace the two
are identical. (They can differ in whitespace because the streaming flush
rewrites each sentence boundary as a single trailing space; see the
counterexample.) -/
theorem c6_amended_spoken_matches (events : List TokenEvent)
    (hcalm : ∀ e ∈ events, calmEvent e = true) :
    (processVoiceStream events).interrupted = false ∧
    removeWs (processVoiceStream events).spoken =
      removeWs (processVoiceStream events).full := by
  have h := runTokens_calm events ⟨[], [], [], false⟩ hcalm rfl rfl
  unfold processVoiceStream
  constructor
  · exact h.1
  · by_cases hb : trimChars (runTokens ⟨[], [], [], false⟩ events).buffer = []
    · have hnil := removeWs_of_trim_nil _ hb
      simp only [hb, ne_eq, not_true_eq_false, and_false, if_false]
      rw [removeWs_append, hnil, List.append_nil] at h
      exact h.2
    · simp only [h.1, hb, ne_eq, not_false_eq_true, and_true, if_true]
      exact h.2

/-- Witness for C6: the stream "Hi. Bye" with calm playback is spoken in
full up to whitespace and reports no interruption. -/
theorem c6_witness :
    (processVoiceStream [⟨"Hi. Bye".data, false, false, ⟨5, 5⟩⟩]).interrupted =
      false ∧
    removeWs (processVoiceStream
        [⟨"Hi. Bye".data, false, false, ⟨5, 5⟩⟩]).spoken =
      removeWs (processVoiceStream
        [⟨"Hi. Bye".data, false, false, ⟨5, 5⟩⟩]).full :=
  c6_amended_spoken_matches _ (by decide)

/-- Counterexample to C6 as stated: the single-token stream "Hi." completes
playback fully and is never interrupted, yet the spoken text is "Hi. "
(the flush appends a trailing space) while the intended response is "Hi.",
so exact string equality fails. -/
theorem c6_counterexample :
    (processVoiceStream [⟨"Hi.".data, false, false, ⟨5, 5⟩⟩]).interrupted =
      false ∧
    (processVoiceStream [⟨"Hi.".data, false, false, ⟨5, 5⟩⟩]).spoken ≠
      (processVoiceStream [⟨"Hi.".data, false, false, ⟨5, 5⟩⟩]).full := by
  refine ⟨by decide, by decide⟩

end IrisModel
